import Mathlib

/-!
Verification development for the graphdbservice repository.

The definitions below are a shallow embedding of the Python sources:
  - `src/pxgraphdb/pxgraphdbinfra.py` (class `PXGraphDBInfra`): wire-level
    operations against one GraphDB server, sharing a single mutable header
    dict `self.headers` updated in place by `dict.update`;
  - `src/pxgraphdb/pxgraphdb.py` (class `PXGraphDB`): the migration
    orchestrator (`export_import_repos`, `graph_import_with_check`,
    `export_import_repos_graphs`);
  - `src/pxgraphdb/pxdocker.py` (`PXDocker.vol_remove_wait`): the bounded
    volume-removal retry loop.

HTTP I/O is modelled by environments that give, for each request the code
makes, the response the server reports (a status code, or the listing
column the code extracts from the response JSON).  `urllib3` returns
response objects for HTTP error statuses instead of raising, and the
embedded code never branches on a status, so failures are modelled as
error status values carried in responses.  `uuid4()` is modelled by an
external token stream `u : Nat -> String` consumed at an increasing
counter.
-/

namespace GraphDBService

/-! ## Header map (Python `dict` with `update`), `pxgraphdbinfra.py` lines 11-26 -/

/-- The connection's shared header map `self.headers`: an insertion-ordered
association list, as a Python `dict` of strings. -/
abbrev Headers := List (String × String)

/-- `self.headers.update({k: v})`: replace the value at key `k` in place if
the key is present, otherwise append the new pair at the end (Python dict
update semantics on a map with unique keys). -/
def hupdate : Headers → String → String → Headers
  | [], k, v => [(k, v)]
  | (k', v') :: t, k, v =>
      if k' = k then (k, v) :: t else (k', v') :: hupdate t k v

/-- Read the value stored at key `k` of a header map. -/
def hget (h : Headers) (k : String) : Option String :=
  match h with
  | [] => none
  | (k', v') :: t => if k' = k then some v' else hget t k

/-- The `authorization` header value produced by
`urllib3.util.make_headers(basic_auth=user+":"+passwd)`; the base64 step is
kept abstract as plain concatenation, no claim depends on its contents. -/
def authValue (user passwd : String) : String :=
  "Basic " ++ user ++ ":" ++ passwd

/-- `PXGraphDBInfra.__init__` (lines 11-19): headers start as the basic-auth
map when both credentials are non-empty, else empty. -/
def initHeaders (user passwd : String) : Headers :=
  if user ≠ "" ∧ passwd ≠ "" then [("authorization", authValue user passwd)] else []

@[simp] theorem hget_hupdate_self (h : Headers) (k v : String) :
    hget (hupdate h k v) k = some v := by
  induction h with
  | nil => simp [hupdate, hget]
  | cons p t ih =>
      obtain ⟨k', v'⟩ := p
      by_cases hk : k' = k
      · simp [hupdate, hget, hk]
      · simp [hupdate, hget, hk, ih]

theorem hget_hupdate_other (h : Headers) {k' k : String} (v : String) (hne : k' ≠ k) :
    hget (hupdate h k' v) k = hget h k := by
  induction h with
  | nil => simp [hupdate, hget, hne]
  | cons p t ih =>
      obtain ⟨k₀, v₀⟩ := p
      by_cases hk : k₀ = k'
      · subst hk
        simp [hupdate, hget, hne]
      · simp [hupdate, hget, hk, ih]

/-! ## Wire-level operations as header-state transformers

Each operation of `PXGraphDBInfra` first runs its `self.headers.update(...)`
calls on the shared map and then issues its request with the very same
(updated) map; the map persists into the next operation. Each embedded
operation returns the headers state after the call together with the
request(s) it sent. -/

/-- One HTTP request as the code issues it: method, URL, and the header map
that was passed to `self.http.request`. -/
structure Request where
  method : String
  url : String
  hdrs : Headers
deriving Repr, DecidableEq

/-- `PXGraphDBInfra.repositories` (lines 22-26): set `Accept: application/json`
on the shared map, then `GET {url}/repositories` with it. -/
def repositoriesStep (base : String) (h : Headers) : Headers × Request :=
  let h1 := hupdate h "Accept" "application/json"
  (h1, ⟨"GET", base ++ "/repositories", h1⟩)

/-- `<token>-<repositoryId>.conf.ttl`, the configuration artifact name built
at `pxgraphdbinfra.py` line 40 from one `uuid4()` draw. -/
def repoConfFile (tok name : String) : String :=
  tok ++ "-" ++ name ++ ".conf.ttl"

/-- `<token>-<repositoryId>.brf`, the data artifact name built at
`pxgraphdbinfra.py` line 48 from one `uuid4()` draw. -/
def repoDataFile (tok name : String) : String :=
  tok ++ "-" ++ name ++ ".brf"

/-- `PXGraphDBInfra.repo` (lines 38-55): download the repository
configuration (`Accept: text/turtle`) into `<tok1>-<name>.conf.ttl`, then the
statement dump (`Accept: application/x-binary-rdf`) into `<tok2>-<name>.brf`;
`tok1`, `tok2` stand for the two `uuid4()` draws. -/
def repoStep (base name tok1 tok2 : String) (h : Headers) :
    Headers × List Request × String × String :=
  let h1 := hupdate h "Accept" "text/turtle"
  let r1 : Request := ⟨"GET", base ++ "/rest/repositories/" ++ name ++ "/download-ttl", h1⟩
  let configFile := repoConfFile tok1 name
  let h2 := hupdate h1 "Accept" "application/x-binary-rdf"
  let r2 : Request := ⟨"GET", base ++ "/repositories/" ++ name ++ "/statements", h2⟩
  let dataFile := repoDataFile tok2 name
  (h2, [r1, r2], configFile, dataFile)

/-- `PXGraphDBInfra.insert` (lines 77-87), the statement-upload part: set
`Accept: application/json` and `Content-Type: application/x-binary-rdf` on the
shared map, then `POST {url}/repositories/{repo}/statements` with it. -/
def insertStep (base repoId : String) (h : Headers) : Headers × Request :=
  let h1 := hupdate h "Accept" "application/json"
  let h2 := hupdate h1 "Content-Type" "application/x-binary-rdf"
  (h2, ⟨"POST", base ++ "/repositories/" ++ repoId ++ "/statements", h2⟩)

/-- `PXGraphDBInfra.repo_query` (lines 88-98), header effect: set
`Accept: application/sparql-results+json` and
`Content-Type: application/x-www-form-urlencoded`, then `POST` the stored
query to `{url}/repositories/{repo}`. -/
def repoQueryStep (base repoId : String) (h : Headers) : Headers × Request :=
  let h1 := hupdate h "Accept" "application/sparql-results+json"
  let h2 := hupdate h1 "Content-Type" "application/x-www-form-urlencoded"
  (h2, ⟨"POST", base ++ "/repositories/" ++ repoId, h2⟩)

/-- `PXGraphDBInfra.graphs` (lines 64-70), header effect: set
`Accept: application/json`, then `GET {url}/repositories/{repo}/rdf-graphs`. -/
def graphsStep (base repoId : String) (h : Headers) : Headers × Request :=
  let h1 := hupdate h "Accept" "application/json"
  (h1, ⟨"GET", base ++ "/repositories/" ++ repoId ++ "/rdf-graphs", h1⟩)

/-! ## Local artifact file names (`pxgraphdbinfra.py` lines 106-128) -/

/-- The `path` component of `urllib.parse.urlparse`, for the URI shapes the
code handles: everything from the first `/` after `scheme://authority`; a URI
without a scheme separator is all path. -/
def urlPath (uri : String) : String :=
  match uri.splitOn "://" with
  | [] => uri
  | [_] => uri
  | _ :: rest => (String.intercalate "://" rest).dropWhile (fun c => c ≠ '/')

/-- `urlparse(graph).path.replace('/','_') + '.brf'` (lines 108-109 and
121-122): the graph artifact name, a pure function of the graph URI alone. -/
def graphFileName (graph : String) : String :=
  (urlPath graph).replace "/" "_" ++ ".brf"

/-- `PXGraphDBInfra.graph` (lines 106-118), header effect and artifact: set
`Accept: application/x-binary-rdf`, `GET` the graph dump, write it to
`graphFileName graph`, and return `{"repo", "file", "graph"}`. -/
def graphStep (base repoId graph : String) (h : Headers) :
    Headers × Request × String :=
  let h1 := hupdate h "Accept" "application/x-binary-rdf"
  (h1, ⟨"GET", base ++ "/repositories/" ++ repoId ++ "/rdf-graphs/service", h1⟩,
    graphFileName graph)

/-- `PXGraphDBInfra.graph_insert` (lines 119-128), header effect: set
`Content-Type: application/x-binary-rdf`, then `POST` the graph file body. -/
def graphInsertStep (base repoId : String) (h : Headers) : Headers × Request :=
  let h1 := hupdate h "Content-Type" "application/x-binary-rdf"
  (h1, ⟨"POST", base ++ "/repositories/" ++ repoId ++ "/rdf-graphs/service", h1⟩)

/-! ## Graph listings and the existence check (`pxgraphdbinfra.py` lines 64-105)

The two listing operations parse different responses:
`graphs` reads the JSON of `GET /repositories/{repo}/rdf-graphs` and extracts
the column named by `head.vars[0]`; `graph_names` runs the stored query
`get_graph_names.rq` through `repo_query` and extracts the `g` column.  A
server environment carries both raw results per repository id. -/

/-- One SPARQL JSON result binding: variable name to `{"value": ...}`. -/
structure Binding where
  pairs : List (String × String)
deriving Repr, DecidableEq

/-- A SPARQL JSON result document: `head.vars` and `results.bindings`. -/
structure SparqlResults where
  vars : List String
  bindings : List Binding
deriving Repr, DecidableEq

/-- `b[key]['value']`: the value bound to variable `key` in one binding. -/
def bindingValue (b : Binding) (key : String) : String :=
  ((b.pairs.find? (fun p => p.1 = key)).map Prod.snd).getD ""

/-- The column of values for variable `key` across all bindings. -/
def columnOf (rs : SparqlResults) (key : String) : List String :=
  rs.bindings.map (fun b => bindingValue b key)

/-- What one GraphDB server reports to this connection. -/
structure ServerEnv where
  /-- Response JSON of `GET /repositories/{repo}/rdf-graphs` (used by `graphs`). -/
  rdfGraphsResp : String → SparqlResults
  /-- Response JSON of the stored `get_graph_names.rq` query posted to
  `/repositories/{repo}` (used by `graph_names` via `repo_query`). -/
  queryResp : String → SparqlResults

/-- `PXGraphDBInfra.graphs` (lines 64-70): take the rdf-graphs listing JSON,
let `key = head.vars[0]`, and return that column of the bindings. -/
def graphs (env : ServerEnv) (repoId : String) : List String :=
  let allGraphs := env.rdfGraphsResp repoId
  let key := allGraphs.vars.headD ""
  columnOf allGraphs key

/-- `PXGraphDBInfra.repo_query` / `graph_names` (lines 88-100): post the
stored query and return the `g` column of the result bindings. -/
def graph_names (env : ServerEnv) (repoId : String) : List String :=
  columnOf (env.queryResp repoId) "g"

/-- `PXGraphDBInfra.graph_exists` (lines 103-105): membership of the URI in
the result of `graphs` (the rdf-graphs listing), not of `graph_names`. -/
def graph_exists (env : ServerEnv) (repoId graph : String) : Bool :=
  graph ∈ graphs env repoId

/-! ## Graph-level migration (`pxgraphdb.py` lines 135-145)

`PXGraphDB` holds an export connection `self.exp` to the source server and
an import connection `self.imp` to the target server.  Inside
`graph_import_with_check`, imports go through `self.imp.graphdb_graph`
(= `graph_insert` on the target) while the check calls
`self.exp.graph_exists` — the *source* connection. -/

/-- The two servers of one orchestrator plus the statuses the target reports:
`tgtGraphStatus repo graph k` is the status of the `k`-th
`POST .../rdf-graphs/service` for that (repo, graph) in one check call. -/
structure MigEnv where
  /-- Server behind the export connection `self.exp`. -/
  src : ServerEnv
  /-- Server behind the import connection `self.imp`. -/
  tgt : ServerEnv
  /-- Status reported by the target for the `k`-th graph import attempt. -/
  tgtGraphStatus : String → String → Nat → Nat

/-- Outcome of one `graph_import_with_check` call: the value the function
returns (Python returns `None` when the check passes — the first import's
response `imp_resp` is assigned and discarded) and the number of import
attempts the call made. -/
structure CheckResult where
  response : Option Nat
  imports : Nat
deriving Repr, DecidableEq

/-- `PXGraphDB.graph_import_with_check` (lines 135-139): import the graph into
`repo` on the target, then, iff `self.exp.graph_exists(repo, graph)` is false
(a listing from the export-side server), import once more and return that
second response; otherwise fall through and return `None`. -/
def graph_import_with_check (env : MigEnv) (repoId graph : String) : CheckResult :=
  let impResp := env.tgtGraphStatus repoId graph 0
  if ¬ graph_exists env.src repoId graph then
    { response := some (env.tgtGraphStatus repoId graph 1), imports := 2 }
  else
    let _ := impResp
    { response := none, imports := 1 }

/-- One entry of the list `export_import_repos_graphs` returns:
`{'graph': ..., 'response': ...}`. -/
structure GraphMigEntry where
  graph : String
  response : Option Nat
deriving Repr, DecidableEq

/-- An import event `(repo, graph)`: one `POST` of the graph into the target
repository. -/
abbrev GImport := String × String

/-- The import attempts a single check call performs, as events. -/
def checkEvents (env : MigEnv) (repoId graph : String) : List GImport :=
  List.replicate (graph_import_with_check env repoId graph).imports (repoId, graph)

/-- `PXGraphDB.export_import_repos_graphs` (lines 140-145): export every graph
of the list from `srcRepo` (producing `{"repo","file","graph"}` records whose
`graph` field is the input URI), then map each export record to
`{'graph': g['graph'], 'response': graph_import_with_check(tgtRepo, g['graph'])}`.
Returns the entry list together with the trace of target import events. -/
def export_import_repos_graphs (env : MigEnv) (srcRepo : String)
    (gs : List String) (tgtRepo : String) : List GraphMigEntry × List GImport :=
  let exportResponses := gs.map (fun g => (srcRepo, graphFileName g, g))
  let importResponses := exportResponses.map
    (fun e => { graph := e.2.2,
                response := (graph_import_with_check env tgtRepo e.2.2).response })
  (importResponses, exportResponses.flatMap (fun e => checkEvents env tgtRepo e.2.2))

/-! ## Batch repository migration (`pxgraphdb.py` lines 121-134)

`self.imp` is either a single `PXImportGraphDB` or a list of them
(`__init__`, lines 24-30), so `export_import_repos` branches on
`isinstance(self.imp, list)`.  The export phase maps every repository id to
`self.exp.graphdb_repo` (= `PXGraphDBInfra.repo`, drawing two `uuid4()`
tokens and writing the two artifact files); the import phase maps every
`(repo, files)` record to `graphdb_repo_api` (= `insert`) per target,
re-using `r['files']` unchanged. -/

/-- The import-target configuration: one target or a list of targets,
mirroring `isinstance(self.imp, list)`. -/
inductive ImpTargets
  | one (t : String)
  | many (ts : List String)

/-- The configured targets in order. -/
def ImpTargets.toList : ImpTargets → List String
  | .one t => [t]
  | .many ts => ts

/-- What each import target reports: `impStatus target repoId` is the status
of `POST {target}/repositories/{repoId}/statements`. -/
structure RepoMigEnv where
  impStatus : String → String → Nat

/-- One observable call of a batch repository migration run. -/
inductive MEvent
  /-- `self.exp.graphdb_repo(name=r)`: export of repository `r` producing the
  artifact pair (config file, data file). -/
  | exp (repoId conf data : String)
  /-- `i_target.graphdb_repo_api(r, data, conf)`: import of repository `r`
  into `target` from the given artifact pair. -/
  | imp (target repoId conf data : String)
deriving Repr, DecidableEq

/-- Export phase (line 122): map each repository id to its artifact pair,
drawing two fresh `uuid4()` tokens from the stream `u` per export.  Returns
the `resp_repos` records, the export events, and the next token index. -/
def exportPhase (u : Nat → String) : Nat → List String →
    List (String × String × String) × List MEvent × Nat
  | n, [] => ([], [], n)
  | n, r :: rs =>
      let conf := repoConfFile (u n) r
      let data := repoDataFile (u (n + 1)) r
      let rest := exportPhase u (n + 2) rs
      ((r, conf, data) :: rest.1, MEvent.exp r conf data :: rest.2.1, rest.2.2)

/-- Import of the whole `resp_repos` list into one target (lines 127 and
131): one `insert` per record, consuming the record's artifact pair. -/
def importPhase (env : RepoMigEnv) (t : String)
    (arts : List (String × String × String)) : List Nat × List MEvent :=
  (arts.map (fun a => env.impStatus t a.1),
   arts.map (fun a => MEvent.imp t a.1 a.2.1 a.2.2))

/-- The value `export_import_repos` returns: a list of responses per target
in the list branch, a single response list otherwise. -/
inductive MigResults
  | single (rs : List Nat)
  | multi (rss : List (List Nat))
deriving Repr, DecidableEq

/-- The response matrix: one row per configured target. -/
def MigResults.matrix : MigResults → List (List Nat)
  | .single rs => [rs]
  | .multi rss => rss

/-- `PXGraphDB.export_import_repos` (lines 121-134): export every repository
id once, then, per configured target, import every artifact pair; returns
the per-target response lists and the event trace (exports first, then
the imports in target order). -/
def export_import_repos (u : Nat → String) (n₀ : Nat) (env : RepoMigEnv)
    (tgts : ImpTargets) (repos : List String) : MigResults × List MEvent :=
  let ex := exportPhase u n₀ repos
  match tgts with
  | .one t =>
      let im := importPhase env t ex.1
      (.single im.1, ex.2.1 ++ im.2)
  | .many ts =>
      let responses := ts.map (fun t => importPhase env t ex.1)
      (.multi (responses.map Prod.fst),
        ex.2.1 ++ (ts.map (fun t => importPhase env t ex.1)).flatMap Prod.snd)

/-- Entry `(i, j)` of a response matrix, when both indices are in range. -/
def entryAt (m : List (List Nat)) (i j : Nat) : Option Nat :=
  (m[i]?).bind (fun row => row[j]?)

/-- Event test: an export of repository `r` (any artifact pair). -/
def isExpFor (r : String) : MEvent → Bool
  | .exp r' _ _ => r' = r
  | _ => false

/-- Event test: an import of repository `r` into target `t`. -/
def isImpFor (t r : String) : MEvent → Bool
  | .imp t' r' _ _ => t' = t ∧ r' = r
  | _ => false

/-! ## Streamed transfer granularity (`pxgraphdbinfra.py` lines 38-55, 77-87,
106-128)

`resp.stream(amt)` yields successive buffers of at most `amt` bytes until a
payload of `n` bytes is exhausted; `open(f,'rb').read()` yields the whole
payload in one buffer.  Each transfer in the source is modelled by the list
of buffer sizes it materializes for a payload of `n` bytes. -/

/-- Buffer sizes of streaming `n` bytes with `resp.stream(c)`: `n / c` full
chunks of `c` bytes and one final chunk of `n % c` bytes when not exact. -/
def chunkSizes (c n : Nat) : List Nat :=
  List.replicate (n / c) c ++ (if n % c = 0 then [] else [n % c])

/-- `repo`, config download (line 44): `cresp.stream(1024)`. -/
def configDownloadReads (n : Nat) : List Nat := chunkSizes 1024 n

/-- `repo`, data download (line 52): `dresp.stream(4*1024*1024)`. -/
def repoDataDownloadReads (n : Nat) : List Nat := chunkSizes (4 * 1024 * 1024) n

/-- `graph`, graph download (line 115): `resp_raw.stream(4*1024*1024)`. -/
def graphDownloadReads (n : Nat) : List Nat := chunkSizes (4 * 1024 * 1024) n

/-- `insert`, repository import (line 85): `brdf = brdff.read()` — the whole
data file in one buffer, sent as one request body. -/
def insertBodyReads (n : Nat) : List Nat := [n]

/-- `graph_insert`, graph import (line 127): `graph_brdf = fbrdf.read()` —
the whole graph file in one buffer, sent as one request body. -/
def graphInsertBodyReads (n : Nat) : List Nat := [n]

/-- A transfer has payload-independent peak buffering when some fixed bound
`C` dominates every buffer it materializes, whatever the payload size. -/
def BoundedBuffering (f : Nat → List Nat) : Prop :=
  ∃ C, ∀ n, ∀ s ∈ f n, s ≤ C

/-! ## Bounded volume-removal retry (`pxdocker.py` lines 126-136)

`vol_remove_wait` returns `True` at once when the volume does not exist;
otherwise it loops `for i in range(10)`, each iteration attempting
`remove_volume` — returning `True` on success, printing and continuing on an
exception — and returns `False` after the loop.  `succeeds i` models whether
the `i`-th removal attempt succeeds (instead of raising).  The loop body
contains no `time.sleep` call, and the event trace records that. -/

/-- Observable actions of the removal loop: a removal attempt, or a sleep
(never emitted by `vol_remove_wait` — the constructor exists so that the
absence of sleeping is expressible). -/
inductive VolEvent
  | attempt
  | sleepEv
deriving Repr, DecidableEq

/-- The `for i in range(fuel)` loop starting at attempt index `i`. -/
def volRemoveLoop (succeeds : Nat → Bool) : Nat → Nat → Bool × List VolEvent
  | _, 0 => (false, [])
  | i, fuel + 1 =>
      if succeeds i then (true, [VolEvent.attempt])
      else
        let rest := volRemoveLoop succeeds (i + 1) fuel
        (rest.1, VolEvent.attempt :: rest.2)

/-- `PXDocker.vol_remove_wait` (lines 126-136). -/
def vol_remove_wait (volExists : Bool) (succeeds : Nat → Bool) :
    Bool × List VolEvent :=
  if volExists then volRemoveLoop succeeds 0 10 else (true, [])

/-- The claim's timing conjunct, as a property of the embedded loop: any run
making at least two attempts sleeps at least once between them. -/
def SleepsBetweenAttempts : Prop :=
  ∀ volExists succeeds,
    2 ≤ ((vol_remove_wait volExists succeeds).2.count VolEvent.attempt) →
    1 ≤ ((vol_remove_wait volExists succeeds).2.count VolEvent.sleepEv)

/-! ## Theorems -/

/-- String append is right-cancellative; used for artifact-name distinctness. -/
theorem string_append_right_cancel {a b s : String} (h : a ++ s = b ++ s) : a = b := by
  have hd : a.data ++ s.data = b.data ++ s.data := by
    have := congrArg String.data h
    simpa using this
  exact String.ext (List.append_cancel_right hd)

/-- C10: every operation of the connection reads and writes the single shared
header map: `insert` leaves `Content-Type: application/x-binary-rdf` in the
map, each operation sends the updated shared map itself as its request
headers, subsequent repository listings and configuration/data downloads
still send that Content-Type, and it stays until an operation overwriting the
key (here `repo_query`) runs. -/
theorem insert_content_type_persists (h : Headers)
    (base repoId name tok1 tok2 : String) :
    hget (insertStep base repoId h).1 "Content-Type"
        = some "application/x-binary-rdf"
    ∧ (insertStep base repoId h).2.hdrs = (insertStep base repoId h).1
    ∧ (repositoriesStep base (insertStep base repoId h).1).2.hdrs
        = (repositoriesStep base (insertStep base repoId h).1).1
    ∧ hget (repositoriesStep base (insertStep base repoId h).1).2.hdrs
        "Content-Type" = some "application/x-binary-rdf"
    ∧ hget (repositoriesStep base (insertStep base repoId h).1).1
        "Content-Type" = some "application/x-binary-rdf"
    ∧ (∀ req ∈ (repoStep base name tok1 tok2 (insertStep base repoId h).1).2.1,
        hget req.hdrs "Content-Type" = some "application/x-binary-rdf")
    ∧ hget (repoQueryStep base repoId (insertStep base repoId h).1).1
        "Content-Type" = some "application/x-www-form-urlencoded" := by
  have hCT : hget (insertStep base repoId h).1 "Content-Type"
      = some "application/x-binary-rdf" := by
    simp [insertStep]
  have hAcc : ∀ h₀ : Headers, ∀ v : String,
      hget (hupdate h₀ "Accept" v) "Content-Type" = hget h₀ "Content-Type" := by
    intro h₀ v
    exact hget_hupdate_other h₀ v (by decide)
  refine ⟨hCT, rfl, rfl, ?_, ?_, ?_, ?_⟩
  · simpa [repositoriesStep, hAcc] using hCT
  · simpa [repositoriesStep, hAcc] using hCT
  · intro req hreq
    simp only [repoStep, List.mem_cons, List.mem_singleton] at hreq
    rcases hreq with hreq | hreq | hfalse
    · subst hreq
      simpa [hAcc] using hCT
    · subst hreq
      simpa [hAcc] using hCT
    · cases hfalse
  · simp [repoQueryStep]

/-- C10 witness: the persistence facts at a concrete header state. -/
theorem insert_content_type_persists_witness :
    hget (insertStep "http://s" "R" []).1 "Content-Type"
      = some "application/x-binary-rdf"
    ∧ hget (repoQueryStep "http://s" "R" (insertStep "http://s" "R" []).1).1
      "Content-Type" = some "application/x-www-form-urlencoded" := by
  obtain ⟨h1, -, -, -, -, -, h7⟩ :=
    insert_content_type_persists [] "http://s" "R" "R" "t1" "t2"
  exact ⟨h1, h7⟩

/-! ### C9: the volume-removal retry loop -/

theorem volRemoveLoop_attempts_le (s : Nat → Bool) (fuel i : Nat) :
    ((volRemoveLoop s i fuel).2.count VolEvent.attempt) ≤ fuel := by
  induction fuel generalizing i with
  | zero => simp [volRemoveLoop]
  | succ f ih =>
      by_cases hs : s i
      · simp [volRemoveLoop, hs]
      · simpa [volRemoveLoop, hs, List.count_cons] using
          Nat.add_le_add_right (ih (i + 1)) 1

theorem volRemoveLoop_no_sleep (s : Nat → Bool) (fuel i : Nat) :
    ((volRemoveLoop s i fuel).2.count VolEvent.sleepEv) = 0 := by
  induction fuel generalizing i with
  | zero => simp [volRemoveLoop]
  | succ f ih =>
      by_cases hs : s i
      · simp [volRemoveLoop, hs]
      · simp [volRemoveLoop, hs, List.count_cons, ih (i + 1)]

theorem volRemoveLoop_true_iff (s : Nat → Bool) (fuel i : Nat) :
    (volRemoveLoop s i fuel).1 = true ↔ ∃ j, j < fuel ∧ s (i + j) = true := by
  induction fuel generalizing i with
  | zero => simp [volRemoveLoop]
  | succ f ih =>
      by_cases hs : s i
      · constructor
        · intro _
          exact ⟨0, Nat.succ_pos f, by simpa using hs⟩
        · intro _
          simp [volRemoveLoop, hs]
      · have hs' : s i = false := by simpa using hs
        have hred : (volRemoveLoop s i (f + 1)).1
            = (volRemoveLoop s (i + 1) f).1 := by
          simp [volRemoveLoop, hs']
        rw [hred, ih (i + 1)]
        constructor
        · rintro ⟨j, hj, hsj⟩
          exact ⟨j + 1, Nat.succ_lt_succ hj, by
            have : i + 1 + j = i + (j + 1) := by omega
            rwa [this] at hsj⟩
        · rintro ⟨j, hj, hsj⟩
          cases j with
          | zero => simp at hsj; exact absurd hsj hs
          | succ j =>
              exact ⟨j, Nat.lt_of_succ_lt_succ hj, by
                have : i + (j + 1) = i + 1 + j := by omega
                rwa [this] at hsj⟩

theorem volRemoveLoop_first_success (s : Nat → Bool) (fuel i j : Nat)
    (hj : j < fuel) (hs : s (i + j) = true)
    (hmin : ∀ k, k < j → s (i + k) = false) :
    ((volRemoveLoop s i fuel).2.count VolEvent.attempt) = j + 1 := by
  induction fuel generalizing i j with
  | zero => omega
  | succ f ih =>
      cases j with
      | zero =>
          have hsi : s i = true := by simpa using hs
          simp [volRemoveLoop, hsi]
      | succ j =>
          have hsi : s i = false := by simpa using hmin 0 (Nat.succ_pos j)
          have hrec : ((volRemoveLoop s (i + 1) f).2.count VolEvent.attempt)
              = j + 1 := by
            refine ih (i + 1) j (Nat.lt_of_succ_lt_succ hj) ?_ ?_
            · have : i + 1 + j = i + (j + 1) := by omega
              rwa [this]
            · intro k hk
              have : i + 1 + k = i + (k + 1) := by omega
              rw [this]
              exact hmin (k + 1) (Nat.succ_lt_succ hk)
          simp [volRemoveLoop, hsi, List.count_cons, hrec]

/-- C9 counterexample: the embedded `vol_remove_wait` never sleeps — a run
that makes all ten removal attempts records no sleep event, refuting the
claim's "sleeping a configured fixed interval between attempts". -/
theorem vol_remove_wait_never_sleeps : ¬ SleepsBetweenAttempts := by
  intro hcl
  have h10 : ((vol_remove_wait true (fun _ => false)).2.count VolEvent.attempt)
      = 10 := by decide
  have := hcl true (fun _ => false) (by rw [h10]; omega)
  have h0 : ((vol_remove_wait true (fun _ => false)).2.count VolEvent.sleepEv)
      = 0 := by decide
  omega

/-- C9 amended: `vol_remove_wait` makes at most 10 removal attempts with no
sleep between them, returns `true` exactly when the volume is already absent
or some attempt within the budget succeeds (and stops at the first success,
having made `i + 1` attempts), and returns `false` once the attempt budget is
exhausted. -/
theorem vol_remove_wait_bounded (volExists : Bool) (succeeds : Nat → Bool) :
    ((vol_remove_wait volExists succeeds).2.count VolEvent.attempt) ≤ 10
    ∧ ((vol_remove_wait volExists succeeds).2.count VolEvent.sleepEv) = 0
    ∧ ((vol_remove_wait volExists succeeds).1 = true ↔
        volExists = false ∨ ∃ i, i < 10 ∧ succeeds i = true)
    ∧ (∀ i, i < 10 → succeeds i = true → (∀ k, k < i → succeeds k = false) →
        ((vol_remove_wait volExists succeeds).2.count VolEvent.attempt)
          = if volExists then i + 1 else 0) := by
  cases volExists with
  | false => simp [vol_remove_wait]
  | true =>
      refine ⟨?_, ?_, ?_, ?_⟩
      · simpa [vol_remove_wait] using volRemoveLoop_attempts_le succeeds 10 0
      · simpa [vol_remove_wait] using volRemoveLoop_no_sleep succeeds 10 0
      · simpa [vol_remove_wait] using volRemoveLoop_true_iff succeeds 10 0
      · intro i hi hs hmin
        simpa [vol_remove_wait] using
          volRemoveLoop_first_success succeeds 10 0 i hi (by simpa using hs)
            (fun k hk => by simpa using hmin k hk)

/-- C9 witness: a run with the volume present and the third attempt
succeeding makes exactly three attempts, no sleeps, and returns true. -/
theorem vol_remove_wait_bounded_witness :
    ((vol_remove_wait true (fun i => i == 2)).2.count VolEvent.attempt) ≤ 10
    ∧ ((vol_remove_wait true (fun i => i == 2)).2.count VolEvent.sleepEv) = 0
    ∧ ((vol_remove_wait true (fun i => i == 2)).2.count VolEvent.attempt)
        = 3 := by
  obtain ⟨h1, h2, -, h4⟩ := vol_remove_wait_bounded true (fun i => i == 2)
  refine ⟨h1, h2, ?_⟩
  have := h4 2 (by omega) (by decide) (by decide)
  simpa using this

/-! ### C5: transfer buffering -/

/-- The C5 claim as stated: every binary statement-dump transfer, in both
directions, has payload-independent peak buffering. -/
def ChunkedBothDirections : Prop :=
  BoundedBuffering repoDataDownloadReads ∧ BoundedBuffering insertBodyReads
    ∧ BoundedBuffering graphDownloadReads ∧ BoundedBuffering graphInsertBodyReads

/-- C5 counterexample: the import direction reads the whole dump at once
(`insert` line 85 does `brdff.read()`), so no fixed bound dominates its
buffer sizes — the claim as stated is false. -/
theorem not_chunked_both_directions : ¬ ChunkedBothDirections := by
  rintro ⟨-, ⟨C, hC⟩, -, -⟩
  have := hC (C + 1) (C + 1) (by simp [insertBodyReads])
  omega

/-- C5 amended: the export direction is chunked — repository and graph dump
downloads stream in 4 MiB buffers (and transfer the whole payload), the
config download in 1024-byte buffers — while the import direction
(`insert`, `graph_insert`) materializes the whole payload in one buffer. -/
theorem streaming_granularity (n : Nat) :
    (∀ s ∈ repoDataDownloadReads n, s ≤ 4 * 1024 * 1024)
    ∧ (∀ s ∈ configDownloadReads n, s ≤ 1024)
    ∧ (∀ s ∈ graphDownloadReads n, s ≤ 4 * 1024 * 1024)
    ∧ (repoDataDownloadReads n).sum = n
    ∧ insertBodyReads n = [n]
    ∧ graphInsertBodyReads n = [n] := by
  have hmem : ∀ c n : Nat, 0 < c → ∀ s ∈ chunkSizes c n, s ≤ c := by
    intro c n hc s hs
    simp only [chunkSizes, List.mem_append] at hs
    rcases hs with hs | hs
    · have := List.eq_of_mem_replicate hs
      omega
    · by_cases hr : n % c = 0
      · simp [hr] at hs
      · simp [hr] at hs
        have := Nat.mod_lt n hc
        omega
  have hsum : ∀ c n : Nat, 0 < c → (chunkSizes c n).sum = n := by
    intro c n hc
    by_cases hr : n % c = 0
    · have hthis : chunkSizes c n = List.replicate (n / c) c := by
        simp [chunkSizes, hr]
      rw [hthis, List.sum_replicate, smul_eq_mul]
      exact Nat.div_mul_cancel (Nat.dvd_of_mod_eq_zero hr)
    · have hthis : (chunkSizes c n).sum = n / c * c + n % c := by
        simp [chunkSizes, hr, List.sum_replicate, smul_eq_mul]
      rw [hthis, Nat.mul_comm]
      exact Nat.div_add_mod n c
  exact ⟨hmem _ n (by omega), hmem _ n (by omega), hmem _ n (by omega),
    hsum _ n (by omega), rfl, rfl⟩

/-- C5 witness: a 5 MiB payload streams as one 4 MiB chunk plus a 1 MiB
remainder on export, and as a single 5 MiB buffer on import. -/
theorem streaming_granularity_witness :
    (∀ s ∈ repoDataDownloadReads 5242880, s ≤ 4 * 1024 * 1024)
    ∧ insertBodyReads 5242880 = [5242880] := by
  obtain ⟨h1, -, -, -, h5, -⟩ := streaming_granularity 5242880
  exact ⟨h1, h5⟩

/-! ### C7, C2, C6, C3: graph listings and graph-level migration -/

/-- A server whose rdf-graphs endpoint lists `gs` (for every repository) and
whose stored `get_graph_names.rq` query returns `qs`. -/
def srvListing (gs qs : List String) : ServerEnv where
  rdfGraphsResp := fun _ =>
    { vars := ["contextID"], bindings := gs.map (fun g => { pairs := [("contextID", g)] }) }
  queryResp := fun _ =>
    { vars := ["g"], bindings := qs.map (fun g => { pairs := [("g", g)] }) }

/-- A server state on which the rdf-graphs listing and the stored-query
listing disagree about `https://example.org/g1`. -/
def listingMismatchSrv : ServerEnv := srvListing ["https://example.org/g1"] []

/-- C7 counterexample: `graph_exists` is a membership test against `graphs`
(the rdf-graphs endpoint), not against the stored-query listing
`graph_names`: on `listingMismatchSrv` it answers true for a URI that is not
in the stored-query listing. -/
theorem graph_exists_not_graph_names :
    graph_exists listingMismatchSrv "RepoA" "https://example.org/g1" = true
    ∧ ("https://example.org/g1" ∈ graph_names listingMismatchSrv "RepoA"
        → False) := by
  constructor
  · decide
  · intro hmem
    simp [graph_names, listingMismatchSrv, srvListing, columnOf] at hmem

/-- C7 amended: `graph_exists(repo, uri)` is true iff uri is in the listing
returned by `graphs` (the `GET /repositories/{repo}/rdf-graphs` endpoint);
the membership law against the stored-query listing `graph_names` holds
exactly on servers where the two listings agree. -/
theorem graph_exists_membership (env : ServerEnv) (repoId g : String) :
    (graph_exists env repoId g = true ↔ g ∈ graphs env repoId)
    ∧ (graph_names env repoId = graphs env repoId →
        (graph_exists env repoId g = true ↔ g ∈ graph_names env repoId)) := by
  have h1 : graph_exists env repoId g = true ↔ g ∈ graphs env repoId := by
    simp [graph_exists]
  exact ⟨h1, fun hagree => by rw [hagree]; exact h1⟩

/-- A server on which both listings are `["https://example.org/g1"]`. -/
def listingAgreeSrv : ServerEnv :=
  srvListing ["https://example.org/g1"] ["https://example.org/g1"]

/-- C7 witness: on a server where the listings agree, `graph_exists` answers
membership in both. -/
theorem graph_exists_membership_witness :
    (graph_exists listingAgreeSrv "R" "https://example.org/g1" = true
      ↔ "https://example.org/g1" ∈ graphs listingAgreeSrv "R")
    ∧ (graph_exists listingAgreeSrv "R" "https://example.org/g1" = true
      ↔ "https://example.org/g1" ∈ graph_names listingAgreeSrv "R") := by
  obtain ⟨h1, h2⟩ := graph_exists_membership listingAgreeSrv "R" "https://example.org/g1"
  exact ⟨h1, h2 (by decide)⟩

/-- A migration state after a failed import: the graph is absent from the
target server's listing, while the export-side server lists it for the same
repository id. -/
def crossCheckEnv : MigEnv where
  src := srvListing ["https://example.org/g1"] []
  tgt := srvListing [] []
  tgtGraphStatus := fun _ _ _ => 500

/-- C2: the verification step of `graph_import_with_check` queries the
export-side connection (`self.exp.graph_exists`), not the import target.  On
`crossCheckEnv` the graph is absent from the target's listing, yet no
second import attempt happens and the call returns `None`, because the source-side
listing for the target repository id contains the graph. -/
theorem graph_check_queries_source_not_target :
    graph_import_with_check crossCheckEnv "RepoB" "https://example.org/g1"
        = { response := none, imports := 1 }
    ∧ graph_exists crossCheckEnv.tgt "RepoB" "https://example.org/g1" = false
    ∧ graph_exists crossCheckEnv.src "RepoB" "https://example.org/g1" = true := by
  refine ⟨?_, by decide, by decide⟩
  have hsrc : graph_exists crossCheckEnv.src "RepoB" "https://example.org/g1"
      = true := by decide
  simp [graph_import_with_check, hsrc]

/-- The value `graph_import_with_check` returns, as a function of the
source-side existence check. -/
theorem check_response (env : MigEnv) (repoId g : String) :
    (graph_import_with_check env repoId g).response
      = if graph_exists env.src repoId g then none
        else some (env.tgtGraphStatus repoId g 1) := by
  by_cases he : graph_exists env.src repoId g
  · simp [graph_import_with_check, he]
  · simp [graph_import_with_check, he]

/-- One check call performs at most two import attempts. -/
theorem check_imports_le_two (env : MigEnv) (repoId g : String) :
    (graph_import_with_check env repoId g).imports ≤ 2 := by
  by_cases he : graph_exists env.src repoId g <;>
    simp [graph_import_with_check, he]

/-- The entry list of a batch graph migration, as a map over the input. -/
theorem export_import_repos_graphs_entries (env : MigEnv)
    (srcRepo tgtRepo : String) (gs : List String) :
    (export_import_repos_graphs env srcRepo gs tgtRepo).1
      = gs.map (fun g =>
          { graph := g,
            response := (graph_import_with_check env tgtRepo g).response }) := by
  simp only [export_import_repos_graphs, List.map_map]
  rfl

/-- The target-import event trace of a batch graph migration. -/
theorem export_import_repos_graphs_events (env : MigEnv)
    (srcRepo tgtRepo : String) (gs : List String) :
    (export_import_repos_graphs env srcRepo gs tgtRepo).2
      = gs.flatMap (fun g => checkEvents env tgtRepo g) := by
  simp only [export_import_repos_graphs, List.flatMap_map]

/-- C6 amended: the batch graph migration returns an ordered list with one
entry per input graph URI; an entry carries the status the target reported
for the second import attempt when the post-import check failed, and `None`
when the check passed — the first import's response is discarded rather than
reported. -/
theorem export_import_repos_graphs_results (env : MigEnv)
    (srcRepo tgtRepo : String) (gs : List String) :
    ((export_import_repos_graphs env srcRepo gs tgtRepo).1).length = gs.length
    ∧ ∀ (i : Nat) (g : String), gs[i]? = some g →
        ((export_import_repos_graphs env srcRepo gs tgtRepo).1)[i]?
          = some { graph := g,
                   response := if graph_exists env.src tgtRepo g then none
                               else some (env.tgtGraphStatus tgtRepo g 1) } := by
  rw [export_import_repos_graphs_entries]
  refine ⟨List.length_map _ _, ?_⟩
  intro i g hg
  rw [List.getElem?_map, hg]
  simp [check_response]

/-- A migration state where the graph is listed on both sides and the target
reports status 200 for every import. -/
def verifiedPathEnv : MigEnv where
  src := srvListing ["https://example.org/g1"] []
  tgt := srvListing ["https://example.org/g1"] []
  tgtGraphStatus := fun _ _ _ => 200

/-- C6 counterexample: the target reported 200 for the (only) import of the
graph, yet the returned entry carries no status at all — refuting "each
entry carries the status the target call reported for that graph". -/
theorem migration_entry_discards_first_response :
    (export_import_repos_graphs verifiedPathEnv "RepoA"
        ["https://example.org/g1"] "RepoB").1
      = [{ graph := "https://example.org/g1", response := none }]
    ∧ verifiedPathEnv.tgtGraphStatus "RepoB" "https://example.org/g1" 0
      = 200 := by
  constructor
  · rw [export_import_repos_graphs_entries]
    have hsrc : graph_exists verifiedPathEnv.src "RepoB"
        "https://example.org/g1" = true := by decide
    simp [check_response, hsrc]
  · rfl

/-- C6 witness: the amended characterization at `verifiedPathEnv` on one
graph. -/
theorem export_import_repos_graphs_results_witness :
    ((export_import_repos_graphs verifiedPathEnv "RepoA"
        ["https://example.org/g1"] "RepoB").1).length = 1
    ∧ ((export_import_repos_graphs verifiedPathEnv "RepoA"
        ["https://example.org/g1"] "RepoB").1)[0]?
      = some { graph := "https://example.org/g1", response := none } := by
  obtain ⟨h1, h2⟩ := export_import_repos_graphs_results verifiedPathEnv
    "RepoA" "RepoB" ["https://example.org/g1"]
  refine ⟨h1, ?_⟩
  have := h2 0 "https://example.org/g1" rfl
  rw [this]
  have hsrc : graph_exists verifiedPathEnv.src "RepoB"
      "https://example.org/g1" = true := by decide
  simp [hsrc]

/-- The import events of a batch graph migration mention a given graph URI at
most twice per occurrence of that URI in the input list. -/
theorem import_events_count (env : MigEnv) (tgtRepo g₀ : String)
    (gs : List String) :
    (gs.flatMap (fun g => checkEvents env tgtRepo g)).count (tgtRepo, g₀)
      ≤ 2 * gs.count g₀ := by
  induction gs with
  | nil => simp
  | cons g gs ih =>
      rw [List.flatMap_cons, List.count_append, List.count_cons]
      have hk : (checkEvents env tgtRepo g).count (tgtRepo, g₀)
          ≤ if g = g₀ then 2 else 0 := by
        unfold checkEvents
        rw [List.count_replicate]
        by_cases hg : g = g₀
        · subst hg
          simp only [beq_self_eq_true, if_true, if_pos rfl]
          exact check_imports_le_two env tgtRepo g
        · have hpair : ((tgtRepo, g) == (tgtRepo, g₀)) = false :=
            beq_eq_false_iff_ne.mpr (fun h => hg (congrArg Prod.snd h))
          simp [hpair, hg]
      by_cases hg : g = g₀
      · subst hg
        rw [if_pos rfl] at hk
        have hb : (g == g) = true := beq_self_eq_true g
        simp only [hb, if_true]
        omega
      · rw [if_neg hg] at hk
        have hb : (g == g₀) = false := beq_eq_false_iff_ne.mpr hg
        simp only [hb, Bool.false_eq_true, if_false]
        omega

/-- C3: for a graph URI occurring at most once in the input list, a batch
graph migration makes at most two import attempts for it — one
initial import plus at most one automatic re-import; a third never occurs. -/
theorem at_most_two_imports (env : MigEnv) (srcRepo tgtRepo g₀ : String)
    (gs : List String) (honce : gs.count g₀ ≤ 1) :
    ((export_import_repos_graphs env srcRepo gs tgtRepo).2).count (tgtRepo, g₀)
      ≤ 2 := by
  rw [export_import_repos_graphs_events]
  have := import_events_count env tgtRepo g₀ gs
  omega

/-- C3 witness: on `crossCheckEnv` (where the check actually fires a
re-import is impossible since the source lists the graph) exactly one import
happens; the bound of two holds. -/
theorem at_most_two_imports_witness :
    (["https://example.org/g1"] : List String).count "https://example.org/g1" ≤ 1
    ∧ ((export_import_repos_graphs crossCheckEnv "RepoA"
        ["https://example.org/g1"] "RepoB").2).count
          ("RepoB", "https://example.org/g1") ≤ 2 := by
  refine ⟨by decide, ?_⟩
  exact at_most_two_imports crossCheckEnv "RepoA" "RepoB"
    "https://example.org/g1" ["https://example.org/g1"] (by decide)

/-! ### C1, C4: batch repository migration -/

theorem exportPhase_fst (u : Nat → String) (repos : List String) :
    ∀ n, ((exportPhase u n repos).1).map Prod.fst = repos := by
  induction repos with
  | nil => intro n; rfl
  | cons r rs ih =>
      intro n
      simp [exportPhase, ih (n + 2)]

theorem exportPhase_events (u : Nat → String) (repos : List String) :
    ∀ n, (exportPhase u n repos).2.1
      = ((exportPhase u n repos).1).map (fun a => MEvent.exp a.1 a.2.1 a.2.2) := by
  induction repos with
  | nil => intro n; rfl
  | cons r rs ih =>
      intro n
      simp [exportPhase, ih (n + 2)]

/-- The per-target response list is the import status of each repository in
order. -/
theorem importPhase_statuses (env : RepoMigEnv) (t : String)
    (u : Nat → String) (n : Nat) (repos : List String) :
    (importPhase env t (exportPhase u n repos).1).1
      = repos.map (fun r => env.impStatus t r) := by
  show ((exportPhase u n repos).1).map (fun a => env.impStatus t a.1)
      = repos.map (fun r => env.impStatus t r)
  rw [show ((exportPhase u n repos).1).map (fun a => env.impStatus t a.1)
        = (((exportPhase u n repos).1).map Prod.fst).map
            (fun r => env.impStatus t r) by rw [List.map_map]; rfl,
    exportPhase_fst]

/-- The response matrix of a batch repository migration: one row per
configured target, one entry per repository id carrying the status that
target reported for that repository. -/
theorem export_import_repos_matrix (u : Nat → String) (n₀ : Nat)
    (env : RepoMigEnv) (tgts : ImpTargets) (repos : List String) :
    ((export_import_repos u n₀ env tgts repos).1).matrix
      = tgts.toList.map (fun t => repos.map (fun r => env.impStatus t r)) := by
  cases tgts with
  | one t =>
      simp only [export_import_repos, ImpTargets.toList, MigResults.matrix,
        List.map_cons, List.map_nil]
      rw [importPhase_statuses]
  | many ts =>
      simp only [export_import_repos, ImpTargets.toList, MigResults.matrix,
        List.map_map]
      refine List.map_congr_left ?_
      intro t ht
      exact importPhase_statuses env t u n₀ repos

/-- The event trace of a batch repository migration: the exports in input
order, then, per configured target in order, one import per export record
consuming that record's artifact pair. -/
theorem export_import_repos_trace (u : Nat → String) (n₀ : Nat)
    (env : RepoMigEnv) (tgts : ImpTargets) (repos : List String) :
    (export_import_repos u n₀ env tgts repos).2
      = ((exportPhase u n₀ repos).1).map (fun a => MEvent.exp a.1 a.2.1 a.2.2)
        ++ tgts.toList.flatMap (fun t => ((exportPhase u n₀ repos).1).map
            (fun a => MEvent.imp t a.1 a.2.1 a.2.2)) := by
  cases tgts with
  | one t =>
      simp only [export_import_repos, ImpTargets.toList, List.flatMap_cons,
        List.flatMap_nil, List.append_nil]
      rw [exportPhase_events]
      rfl
  | many ts =>
      simp only [export_import_repos, ImpTargets.toList, List.flatMap_map]
      rw [exportPhase_events]
      rfl

/-- Import events carry no export: the export step never re-runs during
the import phase. -/
theorem isExpFor_import_events (u : Nat → String) (n₀ : Nat)
    (tgts : ImpTargets) (repos : List String) (r : String) :
    ∀ e ∈ tgts.toList.flatMap (fun t => ((exportPhase u n₀ repos).1).map
        (fun a => MEvent.imp t a.1 a.2.1 a.2.2)), isExpFor r e = false := by
  intro e he
  obtain ⟨t, -, he⟩ := List.mem_flatMap.mp he
  obtain ⟨a, -, rfl⟩ := List.mem_map.mp he
  rfl

/-- In every batch repository migration the export step runs exactly
`repos.count r` times for the repository id `r`, whatever the configured
targets. -/
theorem trace_exp_count (u : Nat → String) (n₀ : Nat) (env : RepoMigEnv)
    (tgts : ImpTargets) (repos : List String) (r : String) :
    (((export_import_repos u n₀ env tgts repos).2).countP (isExpFor r))
      = repos.count r := by
  rw [export_import_repos_trace, List.countP_append]
  have hzero : (tgts.toList.flatMap (fun t => ((exportPhase u n₀ repos).1).map
      (fun a => MEvent.imp t a.1 a.2.1 a.2.2))).countP (isExpFor r) = 0 := by
    rw [List.countP_eq_zero]
    intro e he
    simp [isExpFor_import_events u n₀ tgts repos r e he]
  rw [hzero, Nat.add_zero, List.countP_map]
  have hcong : (((exportPhase u n₀ repos).1).countP
        (fun a => isExpFor r (MEvent.exp a.1 a.2.1 a.2.2)))
      = (((exportPhase u n₀ repos).1).countP (fun a => a.1 == r)) := by
    refine List.countP_congr ?_
    intro a _
    by_cases hx : a.1 = r <;> simp [isExpFor, hx]
  rw [show ((isExpFor r) ∘ fun a : String × String × String =>
      MEvent.exp a.1 a.2.1 a.2.2)
      = fun a : String × String × String =>
          isExpFor r (MEvent.exp a.1 a.2.1 a.2.2) from rfl, hcong]
  rw [show (fun a : String × String × String => a.1 == r)
      = ((fun x => x == r) ∘ Prod.fst) from rfl, ← List.countP_map,
    exportPhase_fst, ← List.count_eq_countP]

/-- C4: with distinct repository ids, a batch migration exports each listed
repository exactly once — independent of how many targets are configured —
and the single artifact pair that export produced is the one every
configured target's import consumes. -/
theorem export_once_and_reuse (u : Nat → String) (n₀ : Nat)
    (env : RepoMigEnv) (tgts : ImpTargets) (repos : List String) (r : String)
    (hnd : repos.Nodup) (hr : r ∈ repos) :
    (((export_import_repos u n₀ env tgts repos).2).countP (isExpFor r)) = 1
    ∧ ∃ conf data,
        MEvent.exp r conf data ∈ (export_import_repos u n₀ env tgts repos).2
        ∧ (∀ c d, MEvent.exp r c d ∈ (export_import_repos u n₀ env tgts repos).2
            → c = conf ∧ d = data)
        ∧ ∀ t ∈ tgts.toList,
            MEvent.imp t r conf data
              ∈ (export_import_repos u n₀ env tgts repos).2 := by
  have hfst := exportPhase_fst u repos n₀
  have hmem : r ∈ ((exportPhase u n₀ repos).1).map Prod.fst := by
    rw [hfst]; exact hr
  obtain ⟨a, ha, hafst⟩ := List.mem_map.mp hmem
  have hndm : (((exportPhase u n₀ repos).1).map Prod.fst).Nodup := by
    rw [hfst]; exact hnd
  constructor
  · rw [trace_exp_count]
    exact List.count_eq_one_of_mem hnd hr
  · refine ⟨a.2.1, a.2.2, ?_, ?_, ?_⟩
    · rw [export_import_repos_trace]
      refine List.mem_append_left _ ?_
      have := List.mem_map_of_mem (fun x => MEvent.exp x.1 x.2.1 x.2.2) ha
      simpa only [hafst] using this
    · intro c d hcd
      rw [export_import_repos_trace] at hcd
      rcases List.mem_append.mp hcd with hcd | hcd
      · obtain ⟨a', ha', heq⟩ := List.mem_map.mp hcd
        have h1 : a'.1 = r := by
          have := congrArg (fun e => match e with
            | MEvent.exp x _ _ => x
            | MEvent.imp _ x _ _ => x) heq
          simpa using this
        have haa : a' = a :=
          List.inj_on_of_nodup_map hndm ha' ha (by rw [h1, hafst])
        constructor
        · have := congrArg (fun e => match e with
            | MEvent.exp _ x _ => x
            | MEvent.imp _ _ x _ => x) heq
          simp at this
          rw [← this, haa]
        · have := congrArg (fun e => match e with
            | MEvent.exp _ _ x => x
            | MEvent.imp _ _ _ x => x) heq
          simp at this
          rw [← this, haa]
      · have := isExpFor_import_events u n₀ tgts repos r _ hcd
        simp [isExpFor] at this
    · intro t ht
      rw [export_import_repos_trace]
      refine List.mem_append_right _ ?_
      refine List.mem_flatMap.mpr ⟨t, ht, ?_⟩
      have := List.mem_map_of_mem
        (fun x : String × String × String => MEvent.imp t x.1 x.2.1 x.2.2) ha
      simpa only [hafst] using this

/-- C1: a batch repository migration processes every repository id for every
configured target: the response matrix has one row per target and one entry
per repository id, each entry is exactly the status that target reported for
that repository (an error status is recorded like any other), and changing
what the targets report for one repository id — e.g. turning it into a
failure — changes no other entry: the batch continues and prior results are
untouched. -/
theorem export_import_repos_batch_tolerant (u : Nat → String) (n₀ : Nat)
    (env env' : RepoMigEnv) (tgts : ImpTargets) (repos : List String)
    (r₀ : String)
    (hagree : ∀ t r, r ≠ r₀ → env.impStatus t r = env'.impStatus t r) :
    (((export_import_repos u n₀ env tgts repos).1).matrix).length
        = tgts.toList.length
    ∧ (∀ row ∈ ((export_import_repos u n₀ env tgts repos).1).matrix,
        row.length = repos.length)
    ∧ (∀ i j : Nat,
        entryAt ((export_import_repos u n₀ env tgts repos).1).matrix i j
          = (tgts.toList[i]?).bind (fun t =>
              (repos[j]?).map (fun r => env.impStatus t r)))
    ∧ (∀ i j : Nat, ∀ r : String, repos[j]? = some r → r ≠ r₀ →
        entryAt ((export_import_repos u n₀ env tgts repos).1).matrix i j
          = entryAt ((export_import_repos u n₀ env' tgts repos).1).matrix i j) := by
  have hentry : ∀ (e : RepoMigEnv) (i j : Nat),
      entryAt ((export_import_repos u n₀ e tgts repos).1).matrix i j
        = (tgts.toList[i]?).bind (fun t =>
            (repos[j]?).map (fun r => e.impStatus t r)) := by
    intro e i j
    rw [export_import_repos_matrix]
    simp only [entryAt, List.getElem?_map]
    cases htl : tgts.toList[i]? with
    | none => rfl
    | some t => simp [List.getElem?_map]
  refine ⟨?_, ?_, hentry env, ?_⟩
  · rw [export_import_repos_matrix]
    exact List.length_map _ _
  · intro row hrow
    rw [export_import_repos_matrix] at hrow
    obtain ⟨t, -, rfl⟩ := List.mem_map.mp hrow
    exact List.length_map _ _
  · intro i j r hj hr
    rw [hentry env, hentry env', hj]
    cases htl : tgts.toList[i]? with
    | none => rfl
    | some t => simp [hagree t r hr]

/-- C1 witness: two targets, two repositories, a second environment in which
the target reports a failure for repository `bad`: all four entries exist,
carry reported statuses, and the entries for `A` agree across the two
environments. -/
theorem export_import_repos_batch_tolerant_witness :
    entryAt ((export_import_repos (fun _ => "t") 0 ⟨fun _ _ => 200⟩
        (ImpTargets.many ["T1", "T2"]) ["A", "bad"]).1).matrix 1 1 = some 200
    ∧ entryAt ((export_import_repos (fun _ => "t") 0 ⟨fun _ _ => 200⟩
        (ImpTargets.many ["T1", "T2"]) ["A", "bad"]).1).matrix 0 0
      = entryAt ((export_import_repos (fun _ => "t") 0
        ⟨fun _ r => if r = "bad" then 500 else 200⟩
        (ImpTargets.many ["T1", "T2"]) ["A", "bad"]).1).matrix 0 0 := by
  obtain ⟨-, -, h3, h4⟩ := export_import_repos_batch_tolerant (fun _ => "t") 0
    ⟨fun _ _ => 200⟩ ⟨fun _ r => if r = "bad" then 500 else 200⟩
    (ImpTargets.many ["T1", "T2"]) ["A", "bad"] "bad"
    (by intro t r h; simp [h])
  constructor
  · rw [h3 1 1]; rfl
  · exact h4 0 0 "A" rfl (by decide)

/-- C4 witness: one repository exported once while two targets are
configured, the artifact pair shared by both targets' imports. -/
theorem export_once_and_reuse_witness :
    (((export_import_repos (fun k => toString k) 0 ⟨fun _ _ => 200⟩
        (ImpTargets.many ["T1", "T2"]) ["A"]).2).countP (isExpFor "A")) = 1
    ∧ ∃ conf data,
        MEvent.exp "A" conf data
          ∈ (export_import_repos (fun k => toString k) 0 ⟨fun _ _ => 200⟩
              (ImpTargets.many ["T1", "T2"]) ["A"]).2
        ∧ (∀ c d, MEvent.exp "A" c d
              ∈ (export_import_repos (fun k => toString k) 0 ⟨fun _ _ => 200⟩
                  (ImpTargets.many ["T1", "T2"]) ["A"]).2 → c = conf ∧ d = data)
        ∧ ∀ t ∈ (ImpTargets.many ["T1", "T2"]).toList,
            MEvent.imp t "A" conf data
              ∈ (export_import_repos (fun k => toString k) 0 ⟨fun _ _ => 200⟩
                  (ImpTargets.many ["T1", "T2"]) ["A"]).2 :=
  export_once_and_reuse (fun k => toString k) 0 ⟨fun _ _ => 200⟩
    (ImpTargets.many ["T1", "T2"]) ["A"] "A" (by decide) (by decide)

/-! ### C8: artifact naming -/

/-- Distinct tokens give distinct configuration artifact names. -/
theorem repoConfFile_ne (t t' name : String) (hne : t ≠ t') :
    repoConfFile t name ≠ repoConfFile t' name := by
  intro heq
  apply hne
  simp only [repoConfFile] at heq
  exact string_append_right_cancel
    (string_append_right_cancel (string_append_right_cancel heq))

/-- Distinct tokens give distinct data artifact names. -/
theorem repoDataFile_ne (t t' name : String) (hne : t ≠ t') :
    repoDataFile t name ≠ repoDataFile t' name := by
  intro heq
  apply hne
  simp only [repoDataFile] at heq
  exact string_append_right_cancel
    (string_append_right_cancel (string_append_right_cancel heq))

/-- C8: a repository export names its artifacts
`<token>-<id>.conf.ttl` / `<token>-<id>.brf` from two fresh token draws
(indices `n`, `n+1` of the uuid stream), distinct tokens yielding distinct
names; a graph export's file name is the pure function
`path(uri).replace('/','_') + ".brf"` of the graph URI alone — identical
across any two exports of the same URI, whatever the repository or
connection state. -/
theorem artifact_naming (u : Nat → String) (n m : Nat)
    (base base' name g repoId repoId' : String) (h h' : Headers)
    (hne : u n ≠ u m) :
    (repoStep base name (u n) (u (n + 1)) h).2.2.1 = repoConfFile (u n) name
    ∧ (repoStep base name (u n) (u (n + 1)) h).2.2.2
        = repoDataFile (u (n + 1)) name
    ∧ repoConfFile (u n) name = u n ++ "-" ++ name ++ ".conf.ttl"
    ∧ repoDataFile (u (n + 1)) name = u (n + 1) ++ "-" ++ name ++ ".brf"
    ∧ repoConfFile (u n) name ≠ repoConfFile (u m) name
    ∧ repoDataFile (u n) name ≠ repoDataFile (u m) name
    ∧ (graphStep base repoId g h).2.2 = (urlPath g).replace "/" "_" ++ ".brf"
    ∧ (graphStep base repoId g h).2.2 = (graphStep base' repoId' g h').2.2 := by
  exact ⟨rfl, rfl, rfl, rfl, repoConfFile_ne _ _ _ hne,
    repoDataFile_ne _ _ _ hne, rfl, rfl⟩

/-- C8 witness: concrete tokens `"0"` and `"1"`, a concrete graph URI. -/
theorem artifact_naming_witness :
    repoConfFile (toString 0) "Repo" ≠ repoConfFile (toString 1) "Repo"
    ∧ (graphStep "http://s" "R" "https://example.org/a/b" []).2.2
        = (urlPath "https://example.org/a/b").replace "/" "_" ++ ".brf"
    ∧ (graphStep "http://s" "R" "https://example.org/a/b" []).2.2
        = (graphStep "http://s2" "R2" "https://example.org/a/b"
            [("Accept", "text/turtle")]).2.2 := by
  obtain ⟨-, -, -, -, h5, -, h7, h8⟩ :=
    artifact_naming (fun k => toString k) 0 1 "http://s" "http://s2" "Repo"
      "https://example.org/a/b" "R" "R2" [] [("Accept", "text/turtle")]
      (by decide)
  exact ⟨h5, h7, h8⟩

end GraphDBService
